import Mathlib

/-! Shallow embedding of `src/fetch_rhm.py` (single-instrument OHLCV snapshot
pipeline).  Pandas/NumPy float series are modelled as `List (Option _)`,
where `none` stands for the floating-point NaN sentinel; exact price
arithmetic is carried out in `ℚ`, and `ℝ` is used only where the source
applies `np.log` / square roots (`rolling().std()`, `np.sqrt`).
-/

namespace RHM

/-- One daily OHLCV bar (`df` row).  Dates are omitted: the series is kept
as an ordered list and no verified property mentions dates. -/
structure Bar where
  open_ : ℚ
  high : ℚ
  low : ℚ
  close : ℚ
  volume : ℚ
deriving DecidableEq

/-- Evaluates a list of possibly-NaN entries to a defined window: `some`
of the values when no entry is NaN, otherwise `none`.  This is how a
pandas rolling window with default `min_periods = window` treats NaN. -/
def allSome {α : Type} : List (Option α) → Option (List α)
  | [] => some []
  | none :: _ => none
  | some x :: rest => (allSome rest).map (fun ys => x :: ys)

/-- The trailing window of width `w` ending at position `i`:
positions `i + 1 - w` through `i`. -/
def lastWindow {α : Type} (w i : ℕ) (xs : List α) : List α :=
  (xs.take (i + 1)).drop (i + 1 - w)

/-- pandas `series.rolling(w).f()` with the default `min_periods = w`:
position `i` is NaN while fewer than `w` observations exist or the
trailing window contains a NaN, else `f` of the window. -/
def rollingApply {α β : Type} (w : ℕ) (f : List α → β) (xs : List (Option α)) :
    List (Option β) :=
  (List.range xs.length).map (fun i =>
    if i + 1 < w then none
    else (allSome (lastWindow w i xs)).map f)

/-- pandas `.mean()` of a window. -/
def listMean {α : Type} [Field α] (l : List α) : α := l.sum / (l.length : α)

/-- pandas sample variance (`ddof = 1`), the square of `.std()`. -/
def sampleVar {α : Type} [Field α] (l : List α) : α :=
  (l.map (fun x => (x - listMean l) ^ 2)).sum / ((l.length : α) - 1)

/-- pandas `.std()` of a window: the sample standard deviation
(`ddof = 1`), i.e. the square root of `sampleVar`. -/
noncomputable def sampleStd (l : List ℝ) : ℝ := Real.sqrt (sampleVar l)

/-- pandas `.min()` of a (nonempty) window. -/
def listMin : List ℚ → ℚ
  | [] => 0
  | x :: r => r.foldl min x

/-- pandas `.max()` of a (nonempty) window. -/
def listMax : List ℚ → ℚ
  | [] => 0
  | x :: r => r.foldl max x

/-- pandas `series.diff()`: NaN at position 0, `x i - x (i-1)` after. -/
def seriesDiff {α : Type} [Sub α] : List α → List (Option α)
  | [] => []
  | x :: rest => none :: List.zipWith (fun prev cur => some (cur - prev)) (x :: rest) rest

/-- Elementwise division of two possibly-NaN series entries, NaN when the
denominator is zero.  (IEEE `x / 0` is `±inf` for `x ≠ 0`; in this
pipeline the numerator is a money-flow-volume sum which is `0` whenever
the volume sum is `0`, so `none` here only ever stands for NaN.) -/
def nandiv (a b : Option ℚ) : Option ℚ :=
  match a, b with
  | some x, some y => if y = 0 then none else some (x / y)
  | _, _ => none

/-- pandas `loss.replace(0, np.nan)`. -/
def replaceZero (o : Option ℚ) : Option ℚ :=
  o.bind (fun v => if v = 0 then none else some v)

/-- `delta.where(delta > 0, 0)` applied to one entry of `series.diff()`:
the positive change, `0` otherwise (also `0` at the NaN head, since
`NaN > 0` is false and `where` substitutes `0` there). -/
def gainRaw (d : Option ℚ) : ℚ :=
  match d with
  | some v => if 0 < v then v else 0
  | none => 0

/-- `-delta.where(delta < 0, 0)` applied to one entry of `series.diff()`. -/
def lossRaw (d : Option ℚ) : ℚ :=
  match d with
  | some v => if v < 0 then -v else 0
  | none => 0

/-- `gain.rolling(period).mean()` of the `rsi` function. -/
def rsiAvgGain (series : List ℚ) (period : ℕ) : List (Option ℚ) :=
  rollingApply period listMean ((seriesDiff series).map (fun d => some (gainRaw d)))

/-- `loss.rolling(period).mean()` of the `rsi` function. -/
def rsiAvgLoss (series : List ℚ) (period : ℕ) : List (Option ℚ) :=
  rollingApply period listMean ((seriesDiff series).map (fun d => some (lossRaw d)))

/-- One entry of `rs = gain / loss.replace(0, np.nan)`: NaN when either
operand is NaN (so in particular when the average loss is zero). -/
def rsDiv (g l : Option ℚ) : Option ℚ :=
  match g, replaceZero l with
  | some a, some b => some (a / b)
  | _, _ => none

/-- `rsi(series, period)` from the source: relative strength from rolling
average gain over rolling average loss (with zero losses replaced by
NaN), mapped through `100 - 100 / (1 + rs)`. -/
def rsi (series : List ℚ) (period : ℕ := 14) : List (Option ℚ) :=
  let gain := rsiAvgGain series period
  let loss := rsiAvgLoss series period
  let rs := List.zipWith rsDiv gain loss
  rs.map (Option.map (fun r => 100 - 100 / (1 + r)))

/-- Tail of `series.ewm(span, adjust=False).mean()`: `a` is the smoothing
factor `2 / (span + 1)`, `prev` the previous EMA value. -/
def ewmGo (a : ℚ) (prev : ℚ) : List ℚ → List ℚ
  | [] => []
  | x :: rest =>
    let e := (1 - a) * prev + a * x
    e :: ewmGo a e rest

/-- `series.ewm(span=span, adjust=False).mean()`: seeded by the first
value, then the standard recursive EMA formula. -/
def ewmMean (span : ℕ) (xs : List ℚ) : List ℚ :=
  match xs with
  | [] => []
  | x :: rest => x :: ewmGo (2 / ((span : ℚ) + 1)) x rest

/-- `macd(series, fast, slow, signal)` from the source: returns
`(macd_line, signal_line, hist)`. -/
def macd (series : List ℚ) (fast : ℕ := 12) (slow : ℕ := 26) (signal : ℕ := 9) :
    List ℚ × List ℚ × List ℚ :=
  let macd_line := List.zipWith (fun a b => a - b) (ewmMean fast series) (ewmMean slow series)
  let signal_line := ewmMean signal macd_line
  let hist := List.zipWith (fun a b => a - b) macd_line signal_line
  (macd_line, signal_line, hist)

/-- One entry of `ma + mult*std`: NaN when either operand is NaN. -/
def bandAdd (mult : ℚ) (m : Option ℚ) (s : Option ℝ) : Option ℝ :=
  match m, s with
  | some mq, some sr => some ((mq : ℝ) + (mult : ℝ) * sr)
  | _, _ => none

/-- One entry of `ma - mult*std`: NaN when either operand is NaN. -/
def bandSub (mult : ℚ) (m : Option ℚ) (s : Option ℝ) : Option ℝ :=
  match m, s with
  | some mq, some sr => some ((mq : ℝ) - (mult : ℝ) * sr)
  | _, _ => none

/-- `bollinger(series, window, mult)` from the source: returns
`(ma, upper, lower)`.  `rolling().std()` is the square root of the
rolling sample variance, so the bands live in `ℝ`. -/
noncomputable def bollinger (series : List ℚ) (window : ℕ := 20) (mult : ℚ := 2) :
    List (Option ℚ) × List (Option ℝ) × List (Option ℝ) :=
  let ma := rollingApply window listMean (series.map some)
  let var := rollingApply window sampleVar (series.map some)
  let std : List (Option ℝ) := var.map (Option.map (fun v : ℚ => Real.sqrt (v : ℝ)))
  let upper := List.zipWith (bandAdd mult) ma std
  let lower := List.zipWith (bandSub mult) ma std
  (ma, upper, lower)

/-- The money-flow multiplier of one bar, dividing by
`(high - low).replace(0, np.nan)`: NaN when `high = low`. -/
def mf_mult_of (b : Bar) : Option ℚ :=
  if b.high - b.low = 0 then none
  else some (((b.close - b.low) - (b.high - b.close)) / (b.high - b.low))

/-- One entry of `mf_vol = mf_mult * df['Volume']`: NaN times anything is NaN. -/
def mfVol (m : Option ℚ) (b : Bar) : Option ℚ := Option.map (fun x => x * b.volume) m

/-- `chaikin_mf(df, period)` from the source.  The NaN money-flow
multipliers propagate through the rolling sums, and the two rolling sums
divide elementwise.  (The source also computes an unused typical-price
series `tp`, dead code omitted.) -/
def chaikin_mf (df : List Bar) (period : ℕ := 20) : List (Option ℚ) :=
  let mf_mult := df.map mf_mult_of
  let mf_vol := List.zipWith mfVol mf_mult df
  let num := rollingApply period (fun l => l.sum) mf_vol
  let den := rollingApply period (fun l => l.sum) (df.map (fun b => some b.volume))
  List.zipWith nandiv num den

/-- The body of the `for` loop in `obv`: walks the remaining bars carrying
the previous close and the accumulated OBV value. -/
def obvGo (prevClose acc : ℚ) : List Bar → List ℚ
  | [] => []
  | b :: rest =>
    let acc' := if b.close > prevClose then acc + b.volume
      else if b.close < prevClose then acc - b.volume
      else acc
    acc' :: obvGo b.close acc' rest

/-- `obv(df)` from the source: `obv_vals = [0]` then the signed cumulative
volume loop.  (On an empty frame the Python `pd.Series(obv_vals, index=df.index)`
constructor would fail; `main` rejects empty input before calling `obv`.) -/
def obv (df : List Bar) : List ℚ :=
  match df with
  | [] => [0]
  | b :: rest => 0 :: obvGo b.close 0 rest

/-- `np.log(df['Close']).diff()` from `main`. -/
noncomputable def logret (df : List Bar) : List (Option ℝ) :=
  seriesDiff (df.map (fun b => Real.log (b.close : ℝ)))

/-- `hv20` from `main`: the last value of `logret.rolling(20).std()` times
`sqrt 252` when more than 20 non-NaN log-returns exist, else `None`. -/
noncomputable def hv20 (df : List Bar) : Option ℝ :=
  if 20 < ((logret df).filterMap id).length then
    ((rollingApply 20 sampleStd (logret df)).getLast?.join).map (fun s => s * Real.sqrt 252)
  else none

/-- `recent = df.tail(40)` from `main`. -/
def recentDf (df : List Bar) : List Bar := df.drop (df.length - 40)

/-- `support = float(recent['Low'].rolling(5).min().tail(1))` from `main`:
`none` models the NaN that `float` passes through when fewer than 5 bars
exist. -/
def support (df : List Bar) : Option ℚ :=
  (rollingApply 5 listMin ((recentDf df).map (fun b => some b.low))).getLast?.join

/-- `resistance = float(recent['High'].rolling(5).max().tail(1))` from `main`. -/
def resistance (df : List Bar) : Option ℚ :=
  (rollingApply 5 listMax ((recentDf df).map (fun b => some b.high))).getLast?.join

/-- A JSON-emitted numeric field of the payload: a number, the literal
`NaN` that `json.dump` writes for a float NaN, or `null` for `None`. -/
inductive JVal (α : Type) where
  | num (x : α)
  | nan
  | null
deriving DecidableEq

/-- `float(x) if not np.isnan(x) else None`: the NaN-substitution applied
to every indicator field of the payload. -/
def ofOpt {α : Type} : Option α → JVal α
  | some x => JVal.num x
  | none => JVal.null

/-- Python `round(q, 2)`.  (CPython rounds float ties to even; `round`
here rounds ties up.  The two agree away from exact half-ties, and no
verified property depends on tie behaviour.) -/
def round2 (q : ℚ) : ℚ := ((round (q * 100) : ℤ) : ℚ) / 100

/-- Python `round(x, 4)` on the volatility proxy. -/
noncomputable def round4 (x : ℝ) : ℝ := ((round (x * 10000) : ℤ) : ℝ) / 10000

/-- `round(support, 2)` as emitted into the payload: Python `round`
passes NaN through, so an undefined level reaches the JSON as `NaN`
(not as `null`). -/
def levelJVal (o : Option ℚ) : JVal ℚ :=
  match o with
  | some q => JVal.num (round2 q)
  | none => JVal.nan

/-- `round(hv20, 4) if hv20 else None`: Python truthiness, so both
`None` and the float `0.0` are mapped to `null`. -/
noncomputable def hvJVal (o : Option ℝ) : JVal ℝ :=
  match o with
  | some v => if v = 0 then JVal.null else JVal.num (round4 v)
  | none => JVal.null

/-- The JSON payload assembled by `main` (`ticker` constant and therefore
omitted; `as_of` omitted with the dates). -/
structure Payload where
  close : ℚ
  open_ : ℚ
  high : ℚ
  low : ℚ
  volume : ℚ
  bb_ma : JVal ℚ
  bb_upper : JVal ℝ
  bb_lower : JVal ℝ
  rsi14 : JVal ℚ
  macd_line : JVal ℚ
  macd_signal : JVal ℚ
  macd_hist : JVal ℚ
  cmf20 : JVal ℚ
  obv : JVal ℚ
  support_hint : JVal ℚ
  resistance_hint : JVal ℚ
  hv20_proxy : JVal ℝ
  iv_note : String

/-- The payload dictionary built in `main` for a (nonempty) frame.
`latest` is the last row; every indicator field goes through the
`np.isnan` substitution, the levels are `round(support, 2)` /
`round(resistance, 2)` (NaN rounds to NaN, hence `JVal.nan` when
undefined), and the volatility field is `round(hv20, 4) if hv20 else
None` — Python truthiness, which also maps the float `0.0` to `None`. -/
noncomputable def payload (df : List Bar) : Payload :=
  let closes := df.map Bar.close
  let bb := bollinger closes 20 2
  let m := macd closes 12 26 9
  let latest := df.getLastD ⟨0, 0, 0, 0, 0⟩
  { close := latest.close
    open_ := latest.open_
    high := latest.high
    low := latest.low
    volume := latest.volume
    bb_ma := ofOpt (bb.1.getLast?.join)
    bb_upper := ofOpt (bb.2.1.getLast?.join)
    bb_lower := ofOpt (bb.2.2.getLast?.join)
    rsi14 := ofOpt ((rsi closes 14).getLast?.join)
    macd_line := ofOpt (m.1.getLast?)
    macd_signal := ofOpt (m.2.1.getLast?)
    macd_hist := ofOpt (m.2.2.getLast?)
    cmf20 := ofOpt ((chaikin_mf df 20).getLast?.join)
    obv := ofOpt ((obv df).getLast?)
    support_hint := levelJVal (support df)
    resistance_hint := levelJVal (resistance df)
    hv20_proxy := hvJVal (hv20 df)
    iv_note := "Wenn echte ATM-IV (Eurex) verfügbar, hier einfügen; aktuell HV20 als Proxy." }

/-- `main`: aborts with the source's error message on an empty frame
(`if df.empty: raise SystemExit(...)`), before any indicator is computed;
otherwise assembles the payload. -/
noncomputable def main (df : List Bar) : Except String Payload :=
  if df = [] then Except.error "Keine Daten geladen."
  else Except.ok (payload df)

/-! Helper lemmas about the series combinators. -/

lemma zipWith_get? {α β γ : Type} (f : α → β → γ) :
    ∀ (l₁ : List α) (l₂ : List β) (i : ℕ),
      (List.zipWith f l₁ l₂).get? i = (l₁.get? i).bind (fun a => (l₂.get? i).map (f a))
  | [], l₂, i => by simp
  | a :: l₁, [], i => by simp
  | a :: l₁, b :: l₂, 0 => by simp
  | a :: l₁, b :: l₂, (i + 1) => by
      simpa using zipWith_get? f l₁ l₂ i

lemma length_rollingApply {α β : Type} (w : ℕ) (f : List α → β) (xs : List (Option α)) :
    (rollingApply w f xs).length = xs.length := by
  simp [rollingApply]

lemma rollingApply_get? {α β : Type} (w : ℕ) (f : List α → β) (xs : List (Option α))
    {i : ℕ} (h : i < xs.length) :
    (rollingApply w f xs).get? i =
      some (if i + 1 < w then none else (allSome (lastWindow w i xs)).map f) := by
  unfold rollingApply
  rw [List.get?_map, List.get?_range h]
  rfl

lemma allSome_map_some {α : Type} (l : List α) : allSome (l.map some) = some l := by
  induction l with
  | nil => rfl
  | cons a t ih => simp [allSome, ih]

lemma allSome_eq_none_of_mem {α : Type} :
    ∀ {l : List (Option α)}, none ∈ l → allSome l = none
  | [], h => by cases h
  | none :: t, _ => rfl
  | some x :: t, h => by
      have ht : none ∈ t := by
        rcases List.mem_cons.mp h with h' | h'
        · cases h'
        · exact h'
      simp [allSome, allSome_eq_none_of_mem ht]

lemma mem_of_allSome_eq_some {α : Type} :
    ∀ {l : List (Option α)} {ys : List α}, allSome l = some ys → ∀ y ∈ ys, some y ∈ l
  | [], ys, h, y, hy => by
      simp only [allSome] at h
      cases h
      cases hy
  | none :: t, ys, h, y, hy => by
      cases h
  | some x :: t, ys, h, y, hy => by
      simp only [allSome, Option.map_eq_some'] at h
      obtain ⟨zs, hzs, rfl⟩ := h
      rcases List.mem_cons.mp hy with rfl | hy'
      · exact List.mem_cons_self _ _
      · exact List.mem_cons_of_mem _ (mem_of_allSome_eq_some hzs y hy')

lemma allSome_replicate {α : Type} (n : ℕ) (x : α) :
    allSome (List.replicate n (some x)) = some (List.replicate n x) := by
  induction n with
  | zero => rfl
  | succ m ih => simp [List.replicate_succ, allSome, ih]

lemma ewmGo_length (a : ℚ) : ∀ (l : List ℚ) (prev : ℚ), (ewmGo a prev l).length = l.length
  | [], _ => rfl
  | x :: rest, prev => by
      simp [ewmGo, ewmGo_length a rest]

lemma ewmMean_length (span : ℕ) (xs : List ℚ) : (ewmMean span xs).length = xs.length := by
  cases xs with
  | nil => rfl
  | cons x rest => simp [ewmMean, ewmGo_length]

lemma obvGo_length (p acc : ℚ) : ∀ (l : List Bar), (obvGo p acc l).length = l.length
  | [] => rfl
  | b :: rest => by
      simp [obvGo, obvGo_length]

lemma seriesDiff_length {α : Type} [Sub α] (xs : List α) :
    (seriesDiff xs).length = xs.length := by
  cases xs with
  | nil => rfl
  | cons x rest => simp [seriesDiff]

lemma obvGo_rec :
    ∀ (i : ℕ) (rest : List Bar) (b0 : Bar) (acc : ℚ) (bi bj : Bar) (oi : ℚ),
      (b0 :: rest).get? i = some bi →
      (b0 :: rest).get? (i + 1) = some bj →
      (acc :: obvGo b0.close acc rest).get? i = some oi →
      (acc :: obvGo b0.close acc rest).get? (i + 1) =
        some (if bj.close > bi.close then oi + bj.volume
          else if bj.close < bi.close then oi - bj.volume
          else oi)
  | 0, rest, b0, acc, bi, bj, oi, h1, h2, h3 => by
      cases rest with
      | nil => simp at h2
      | cons b1 rest' =>
          simp only [List.get?] at h1 h2 h3
          obtain rfl : b0 = bi := by injection h1
          obtain rfl : b1 = bj := by injection h2
          obtain rfl : acc = oi := by injection h3
          simp [obvGo]
  | (i + 1), rest, b0, acc, bi, bj, oi, h1, h2, h3 => by
      cases rest with
      | nil => simp at h1
      | cons b1 rest' =>
          have h1' : (b1 :: rest').get? i = some bi := h1
          have h2' : (b1 :: rest').get? (i + 1) = some bj := h2
          simp only [obvGo] at h3 ⊢
          exact obvGo_rec i rest' b1 _ bi bj oi h1' h2' h3

/-- C3: for every non-empty input series, the OBV series is aligned with
the input (defined at every position), starts at exactly 0, and obeys the
signed cumulative-volume recurrence: add the bar's volume when close
rose, subtract it when close fell, carry forward when unchanged. -/
theorem obv_cumulative_signed_volume (df : List Bar) (h : df ≠ []) :
    (obv df).length = df.length ∧
    (obv df).get? 0 = some 0 ∧
    ∀ (i : ℕ) (bi bj : Bar) (oi : ℚ),
      df.get? i = some bi → df.get? (i + 1) = some bj → (obv df).get? i = some oi →
      (obv df).get? (i + 1) =
        some (if bj.close > bi.close then oi + bj.volume
          else if bj.close < bi.close then oi - bj.volume
          else oi) := by
  cases df with
  | nil => exact absurd rfl h
  | cons b0 rest =>
      refine ⟨by simp [obv, obvGo_length], rfl, ?_⟩
      intro i bi bj oi h1 h2 h3
      exact obvGo_rec i rest b0 0 bi bj oi h1 h2 h3

theorem obv_cumulative_signed_volume_witness :
    ([⟨1, 1, 1, 1, 5⟩, ⟨2, 2, 2, 2, 7⟩] : List Bar) ≠ [] ∧
    (obv [⟨1, 1, 1, 1, 5⟩, ⟨2, 2, 2, 2, 7⟩]).get? 0 = some 0 :=
  ⟨by simp, (obv_cumulative_signed_volume _ (by simp)).2.1⟩

/-- C5: the MACD line, signal line and histogram are aligned with the
input series (defined from the first observation onward, no undefined
prefix), and the histogram is exactly the MACD line minus the signal
line at every position. -/
theorem macd_histogram_exact (s : List ℚ) :
    (macd s 12 26 9).1.length = s.length ∧
    (macd s 12 26 9).2.1.length = s.length ∧
    (macd s 12 26 9).2.2.length = s.length ∧
    ∀ (i : ℕ) (a b c : ℚ),
      (macd s 12 26 9).1.get? i = some a →
      (macd s 12 26 9).2.1.get? i = some b →
      (macd s 12 26 9).2.2.get? i = some c →
      c = a - b := by
  have hline : (macd s 12 26 9).1.length = s.length := by
    simp [macd, ewmMean_length]
  have hsig : (macd s 12 26 9).2.1.length = s.length := by
    simp [macd, ewmMean_length]
  have hhist : (macd s 12 26 9).2.2.length = s.length := by
    simp [macd, ewmMean_length]
  refine ⟨hline, hsig, hhist, ?_⟩
  intro i a b c ha hb hc
  simp only [macd] at ha hb hc
  rw [zipWith_get?, ha, hb] at hc
  simp only [Option.some_bind, Option.map_some'] at hc
  injection hc with hc
  exact hc.symm

theorem macd_histogram_exact_witness :
    (macd [1] 12 26 9).1.get? 0 = some 0 ∧ (0 : ℚ) = 0 - 0 :=
  ⟨by norm_num [macd, ewmMean, ewmGo],
    (macd_histogram_exact [1]).2.2.2 0 0 0 0
      (by norm_num [macd, ewmMean, ewmGo])
      (by norm_num [macd, ewmMean, ewmGo])
      (by norm_num [macd, ewmMean, ewmGo])⟩

/-- C8: the run fails (with the source's abort message) exactly when the
input series is empty; on any non-empty series it assembles and returns
the snapshot, so the empty series is the only hard failure. -/
theorem empty_series_is_only_failure (df : List Bar) :
    (main df = Except.error "Keine Daten geladen." ↔ df = []) ∧
    (df ≠ [] → main df = Except.ok (payload df)) := by
  by_cases h : df = [] <;> simp [main, h]

theorem empty_series_is_only_failure_witness :
    ([⟨1, 1, 1, 1, 1⟩] : List Bar) ≠ [] ∧
    main [⟨1, 1, 1, 1, 1⟩] = Except.ok (payload [⟨1, 1, 1, 1, 1⟩]) :=
  ⟨by decide, (empty_series_is_only_failure [⟨1, 1, 1, 1, 1⟩]).2 (by decide)⟩

/-! NaN-propagation lemmas for the elementwise combinators. -/

lemma bandAdd_none (mult : ℚ) (s : Option ℝ) : bandAdd mult none s = none := by
  cases s <;> rfl

lemma bandSub_none (mult : ℚ) (s : Option ℝ) : bandSub mult none s = none := by
  cases s <;> rfl

lemma rsDiv_none (l : Option ℚ) : rsDiv none l = none := by
  unfold rsDiv
  cases replaceZero l <;> rfl

lemma nandiv_none (b : Option ℚ) : nandiv none b = none := by
  cases b <;> rfl

lemma getD_none_of_cases {α : Type} {o : Option (Option α)}
    (h : o = none ∨ o = some none) : o.getD none = none := by
  rcases h with h | h <;> simp [h]

lemma rollingApply_short_cases {α β : Type} (w : ℕ) (f : List α → β)
    {xs : List (Option α)} (h : xs.length < w) (i : ℕ) :
    (rollingApply w f xs).get? i = none ∨ (rollingApply w f xs).get? i = some none := by
  by_cases hi : i < xs.length
  · right
    rw [rollingApply_get? w f xs hi]
    have hw : i + 1 < w := by omega
    simp [hw]
  · left
    exact List.get?_eq_none.mpr (by rw [length_rollingApply]; omega)

lemma zipWith_undef_left {α β γ : Type} (f : Option α → β → Option γ)
    (hf : ∀ b, f none b = none) (l₁ : List (Option α)) (l₂ : List β) (i : ℕ)
    (h : l₁.get? i = none ∨ l₁.get? i = some none) :
    (List.zipWith f l₁ l₂).get? i = none ∨
      (List.zipWith f l₁ l₂).get? i = some none := by
  rw [zipWith_get?]
  rcases h with h | h <;> rw [h]
  · left; rfl
  · cases h2 : l₂.get? i
    · left; rfl
    · right; simp [hf]

lemma map_undef {α β : Type} (g : α → β) (l : List (Option α)) (i : ℕ)
    (h : l.get? i = none ∨ l.get? i = some none) :
    ((l.map (Option.map g)).get? i).getD none = none := by
  rw [List.get?_map]
  rcases h with h | h <;> rw [h] <;> rfl

/-- C7: an input series strictly shorter than an indicator's window (20
for Bollinger and CMF, 14 for RSI) leaves that indicator undefined at
every position of its output series. -/
theorem short_series_indicators_undefined (s : List ℚ) (df : List Bar) (i : ℕ) :
    (s.length < 20 →
      (((bollinger s 20 2).1.get? i).getD none = none ∧
        ((bollinger s 20 2).2.1.get? i).getD none = none ∧
        ((bollinger s 20 2).2.2.get? i).getD none = none)) ∧
    (s.length < 14 → ((rsi s 14).get? i).getD none = none) ∧
    (df.length < 20 → ((chaikin_mf df 20).get? i).getD none = none) := by
  refine ⟨fun h20 => ⟨?_, ?_, ?_⟩, fun h14 => ?_, fun h20' => ?_⟩
  · simp only [bollinger]
    exact getD_none_of_cases (rollingApply_short_cases 20 listMean (by simpa using h20) i)
  · simp only [bollinger]
    exact getD_none_of_cases
      (zipWith_undef_left (bandAdd 2) (bandAdd_none 2) _ _ i
        (rollingApply_short_cases 20 listMean (by simpa using h20) i))
  · simp only [bollinger]
    exact getD_none_of_cases
      (zipWith_undef_left (bandSub 2) (bandSub_none 2) _ _ i
        (rollingApply_short_cases 20 listMean (by simpa using h20) i))
  · simp only [rsi]
    exact map_undef _ _ i
      (zipWith_undef_left rsDiv rsDiv_none _ _ i
        (rollingApply_short_cases 14 listMean
          (by simpa [rsiAvgGain, seriesDiff_length] using h14) i))
  · simp only [chaikin_mf]
    refine getD_none_of_cases
      (zipWith_undef_left nandiv nandiv_none _ _ i
        (rollingApply_short_cases 20 (fun l => l.sum) ?_ i))
    simpa using h20'

theorem short_series_indicators_undefined_witness :
    ([1, 2, 3] : List ℚ).length < 14 ∧
    ((rsi [1, 2, 3] 14).get? 0).getD none = none :=
  ⟨by simp, (short_series_indicators_undefined [1, 2, 3] [] 0).2.1 (by simp)⟩

/-- C9: a single bar with `high = low` makes CMF(20) undefined at every
position whose trailing 20-bar window contains that bar, because the NaN
money-flow multiplier poisons the rolling money-flow-volume sum. -/
theorem cmf_flat_bar_poisons_covering_windows (df : List Bar) (j i : ℕ) (b : Bar)
    (hj : df.get? j = some b) (hb : b.high = b.low) (hji : j ≤ i) (hij : i < j + 20) :
    ((chaikin_mf df 20).get? i).getD none = none := by
  have hjn : j < df.length := by
    rcases List.get?_eq_some.mp hj with ⟨h', _⟩
    exact h'
  simp only [chaikin_mf]
  by_cases hin : i < df.length
  · have hmv : (List.zipWith mfVol (df.map mf_mult_of) df).get? j = some none := by
      rw [zipWith_get?, List.get?_map, hj]
      simp [mf_mult_of, mfVol, hb]
    have hlen : (List.zipWith mfVol (df.map mf_mult_of) df).length = df.length := by
      simp
    refine getD_none_of_cases
      (zipWith_undef_left nandiv nandiv_none _ _ i (Or.inr ?_))
    rw [rollingApply_get? 20 _ _ (by rw [hlen]; exact hin)]
    by_cases hw : i + 1 < 20
    · simp [hw]
    · have hwin : none ∈ lastWindow 20 i (List.zipWith mfVol (df.map mf_mult_of) df) := by
        refine List.get?_mem (n := j - (i + 1 - 20)) ?_
        unfold lastWindow
        rw [List.get?_drop]
        have hsum : (i + 1 - 20) + (j - (i + 1 - 20)) = j := by omega
        rw [hsum, List.get?_take (by omega : j < i + 1)]
        exact hmv
      simp [hw, allSome_eq_none_of_mem hwin]
  · refine getD_none_of_cases (Or.inl ?_)
    refine List.get?_eq_none.mpr ?_
    simp [length_rollingApply]
    omega

theorem cmf_flat_bar_poisons_covering_windows_witness :
    (([⟨1, 2, 2, 1, 5⟩] : List Bar).get? 0 = some ⟨1, 2, 2, 1, 5⟩) ∧
    ((chaikin_mf [⟨1, 2, 2, 1, 5⟩] 20).get? 0).getD none = none :=
  ⟨rfl, cmf_flat_bar_poisons_covering_windows [⟨1, 2, 2, 1, 5⟩] 0 0 ⟨1, 2, 2, 1, 5⟩
    rfl rfl (Nat.le_refl 0) (by omega)⟩

/-! Evaluation lemmas on constant windows, used to exhibit concrete
defined Bollinger bands and the flat-series volatility. -/

lemma listMean_replicate {α : Type} [Field α] [CharZero α] {n : ℕ} (hn : n ≠ 0) (x : α) :
    listMean (List.replicate n x) = x := by
  unfold listMean
  rw [List.sum_replicate, List.length_replicate, nsmul_eq_mul]
  exact mul_div_cancel_left₀ x (Nat.cast_ne_zero.mpr hn)

lemma sampleVar_replicate {α : Type} [Field α] [CharZero α] (n : ℕ) (x : α) :
    sampleVar (List.replicate n x) = 0 := by
  cases n with
  | zero => simp [sampleVar, listMean]
  | succ m =>
      simp only [sampleVar, listMean_replicate (Nat.succ_ne_zero m) x, sub_self,
        List.map_replicate, List.sum_replicate]
      norm_num

lemma sampleStd_replicate (n : ℕ) (x : ℝ) : sampleStd (List.replicate n x) = 0 := by
  rw [sampleStd, sampleVar_replicate, Real.sqrt_zero]

/-- C6: whenever the Bollinger moving average, upper band and lower band
are all defined at a position, `lower ≤ ma ≤ upper` (the bands are
`ma ± 2·σ` with `σ` a square root, hence nonnegative). -/
theorem bollinger_band_order (s : List ℚ) (i : ℕ) (m : ℚ) (u l : ℝ)
    (hm : (bollinger s 20 2).1.get? i = some (some m))
    (hu : (bollinger s 20 2).2.1.get? i = some (some u))
    (hl : (bollinger s 20 2).2.2.get? i = some (some l)) :
    l ≤ (m : ℝ) ∧ (m : ℝ) ≤ u := by
  simp only [bollinger] at hm hu hl
  rw [zipWith_get?, hm, Option.some_bind, Option.map_eq_some'] at hu hl
  obtain ⟨so, hso, hadd⟩ := hu
  obtain ⟨so', hso', hsub⟩ := hl
  rw [hso] at hso'
  injection hso' with hso'
  subst hso'
  rw [List.get?_map, Option.map_eq_some'] at hso
  obtain ⟨vo, hvo, hsoeq⟩ := hso
  cases vo with
  | none =>
      subst hsoeq
      simp [bandAdd] at hadd
  | some v =>
      subst hsoeq
      simp only [Option.map_some'] at hadd hsub
      simp only [bandAdd, bandSub] at hadd hsub
      injection hadd with hadd
      injection hsub with hsub
      have hs0 : (0 : ℝ) ≤ Real.sqrt (v : ℝ) := Real.sqrt_nonneg _
      have h2 : ((2 : ℚ) : ℝ) = 2 := by norm_num
      constructor
      · rw [← hsub, h2]; linarith
      · rw [← hadd, h2]; linarith

theorem bollinger_band_order_witness :
    ((1 : ℝ) ≤ ((1 : ℚ) : ℝ)) ∧ (((1 : ℚ) : ℝ) ≤ (1 : ℝ)) := by
  have hwin : lastWindow 20 19 ((List.replicate 20 (1 : ℚ)).map some) =
      List.replicate 20 (some (1 : ℚ)) := by
    simp [lastWindow, List.map_replicate]
  have hma : (rollingApply 20 listMean ((List.replicate 20 (1 : ℚ)).map some)).get? 19 =
      some (some 1) := by
    rw [rollingApply_get? _ _ _ (by simp), hwin, if_neg (by omega), allSome_replicate,
      Option.map_some', listMean_replicate (by norm_num) (1 : ℚ)]
  have hvar : (rollingApply 20 sampleVar ((List.replicate 20 (1 : ℚ)).map some)).get? 19 =
      some (some 0) := by
    rw [rollingApply_get? _ _ _ (by simp), hwin, if_neg (by omega), allSome_replicate,
      Option.map_some', sampleVar_replicate 20 (1 : ℚ)]
  have hstd : ((rollingApply 20 sampleVar ((List.replicate 20 (1 : ℚ)).map some)).map
      (Option.map (fun v : ℚ => Real.sqrt (v : ℝ)))).get? 19 = some (some (0 : ℝ)) := by
    rw [List.get?_map, hvar]
    simp
  have hm : (bollinger (List.replicate 20 (1 : ℚ)) 20 2).1.get? 19 = some (some 1) := by
    simp only [bollinger]
    exact hma
  have hu : (bollinger (List.replicate 20 (1 : ℚ)) 20 2).2.1.get? 19 = some (some 1) := by
    simp only [bollinger]
    rw [zipWith_get?, hma, Option.some_bind, hstd]
    simp [bandAdd]
  have hl : (bollinger (List.replicate 20 (1 : ℚ)) 20 2).2.2.get? 19 = some (some 1) := by
    simp only [bollinger]
    rw [zipWith_get?, hma, Option.some_bind, hstd]
    simp [bandSub]
  exact bollinger_band_order (List.replicate 20 1) 19 1 1 1 hm hu hl

lemma gainRaw_nonneg (d : Option ℚ) : 0 ≤ gainRaw d := by
  cases d with
  | none => simp [gainRaw]
  | some v =>
      simp only [gainRaw]
      split <;> linarith

lemma lossRaw_nonneg (d : Option ℚ) : 0 ≤ lossRaw d := by
  cases d with
  | none => simp [lossRaw]
  | some v =>
      simp only [lossRaw]
      split <;> linarith

lemma rollingMean_map_nonneg {g : Option ℚ → ℚ} (hg : ∀ d, 0 ≤ g d)
    (ds : List (Option ℚ)) (w i : ℕ) (a : ℚ)
    (h : (rollingApply w listMean (ds.map (fun d => some (g d)))).get? i = some (some a)) :
    0 ≤ a := by
  have hi : i < (ds.map (fun d => some (g d))).length := by
    by_contra hcon
    rw [List.get?_eq_none.mpr (by rw [length_rollingApply]; omega)] at h
    cases h
  rw [rollingApply_get? _ _ _ hi] at h
  injection h with h
  by_cases hw : i + 1 < w
  · rw [if_pos hw] at h
    cases h
  · rw [if_neg hw, Option.map_eq_some'] at h
    obtain ⟨ys, hys, hmean⟩ := h
    rw [← hmean]
    unfold listMean
    apply div_nonneg _ (Nat.cast_nonneg _)
    apply List.sum_nonneg
    intro y hy
    have hmem : some y ∈ lastWindow w i (ds.map (fun d => some (g d))) :=
      mem_of_allSome_eq_some hys y hy
    have hmem' : some y ∈ ds.map (fun d => some (g d)) := by
      refine List.Sublist.subset ?_ hmem
      unfold lastWindow
      exact (List.drop_sublist _ _).trans (List.take_sublist _ _)
    rw [List.mem_map] at hmem'
    obtain ⟨d, _, hd⟩ := hmem'
    injection hd with hd
    rw [← hd]
    exact hg d

/-- C4: wherever RSI(14) is defined its value lies in `[0, 100]`, and a
rolling average loss of exactly 0 makes RSI undefined at that position
(the zero loss is replaced by NaN before the division). -/
theorem rsi_bounded_and_zero_loss_undefined (s : List ℚ) (i : ℕ) :
    (∀ v : ℚ, (rsi s 14).get? i = some (some v) → 0 ≤ v ∧ v ≤ 100) ∧
    ((rsiAvgLoss s 14).get? i = some (some 0) → (rsi s 14).get? i = some none) := by
  constructor
  · intro v hv
    simp only [rsi] at hv
    rw [List.get?_map, Option.map_eq_some'] at hv
    obtain ⟨ro, hro, hmapv⟩ := hv
    rw [zipWith_get?, Option.bind_eq_some] at hro
    obtain ⟨go, hgo, hro2⟩ := hro
    rw [Option.map_eq_some'] at hro2
    obtain ⟨lo, hlo, hrs⟩ := hro2
    rw [Option.map_eq_some'] at hmapv
    obtain ⟨r, hr, hfv⟩ := hmapv
    subst hr
    cases go with
    | none =>
        cases hR : replaceZero lo <;> simp [rsDiv, hR] at hrs
    | some a =>
        cases hR : replaceZero lo with
        | none => simp [rsDiv, hR] at hrs
        | some b =>
            simp only [rsDiv, hR] at hrs
            injection hrs with hrs
            have hblo : b ≠ 0 ∧ lo = some b := by
              unfold replaceZero at hR
              cases lo with
              | none => cases hR
              | some c =>
                  simp only [Option.some_bind] at hR
                  by_cases hc : c = 0
                  · rw [if_pos hc] at hR
                    cases hR
                  · rw [if_neg hc] at hR
                    injection hR with hR
                    subst hR
                    exact ⟨hc, rfl⟩
            have ha : 0 ≤ a :=
              rollingMean_map_nonneg gainRaw_nonneg (seriesDiff s) 14 i a
                (by simpa [rsiAvgGain] using hgo)
            have hb : 0 ≤ b :=
              rollingMean_map_nonneg lossRaw_nonneg (seriesDiff s) 14 i b
                (by rw [hblo.2] at hlo; simpa [rsiAvgLoss] using hlo)
            have hbpos : 0 < b := lt_of_le_of_ne hb (Ne.symm hblo.1)
            have hrpos : 0 ≤ r := by
              rw [← hrs]
              exact div_nonneg ha hb
            have h1r : (0 : ℚ) < 1 + r := by linarith
            have hdle : 100 / (1 + r) ≤ 100 := div_le_self (by norm_num) (by linarith)
            have hdpos : 0 < 100 / (1 + r) := div_pos (by norm_num) h1r
            rw [← hfv]
            exact ⟨by linarith, by linarith⟩
  · intro h0
    have hi : i < (rsiAvgLoss s 14).length := by
      rcases List.get?_eq_some.mp h0 with ⟨h', _⟩
      exact h'
    have hi' : i < (rsiAvgGain s 14).length := by
      rw [rsiAvgGain, length_rollingApply, List.length_map]
      rw [rsiAvgLoss, length_rollingApply, List.length_map] at hi
      exact hi
    obtain ⟨go, hgo⟩ : ∃ go, (rsiAvgGain s 14).get? i = some go := by
      cases hg : (rsiAvgGain s 14).get? i with
      | none =>
          rw [List.get?_eq_none] at hg
          omega
      | some go => exact ⟨go, rfl⟩
    simp only [rsi]
    rw [List.get?_map, zipWith_get?, hgo, h0]
    cases go <;> simp [rsDiv, replaceZero]

theorem rsi_bounded_and_zero_loss_undefined_witness :
    (0 ≤ (50 : ℚ) ∧ (50 : ℚ) ≤ 100) ∧
    (rsi [1, 2, 3, 4, 5, 6, 7, 8, 9, 10, 11, 12, 13, 14, 15] 14).get? 14 = some none := by
  have hg : (rsiAvgGain [1, 2, 1, 2, 1, 2, 1, 2, 1, 2, 1, 2, 1, 2, 1] 14).get? 14 =
      some (some (1 / 2)) := by
    rw [rsiAvgGain, rollingApply_get? _ _ _ (by simp [seriesDiff_length]), if_neg (by omega)]
    norm_num [seriesDiff, lastWindow, gainRaw, allSome, listMean]
  have hl : (rsiAvgLoss [1, 2, 1, 2, 1, 2, 1, 2, 1, 2, 1, 2, 1, 2, 1] 14).get? 14 =
      some (some (1 / 2)) := by
    rw [rsiAvgLoss, rollingApply_get? _ _ _ (by simp [seriesDiff_length]), if_neg (by omega)]
    norm_num [seriesDiff, lastWindow, lossRaw, allSome, listMean]
  have ha : (rsi [1, 2, 1, 2, 1, 2, 1, 2, 1, 2, 1, 2, 1, 2, 1] 14).get? 14 =
      some (some 50) := by
    simp only [rsi]
    rw [List.get?_map, zipWith_get?, hg, hl]
    norm_num [rsDiv, replaceZero]
  have hzl : (rsiAvgLoss [1, 2, 3, 4, 5, 6, 7, 8, 9, 10, 11, 12, 13, 14, 15] 14).get? 14 =
      some (some 0) := by
    rw [rsiAvgLoss, rollingApply_get? _ _ _ (by simp [seriesDiff_length]), if_neg (by omega)]
    norm_num [seriesDiff, lastWindow, lossRaw, allSome, listMean]
  exact ⟨(rsi_bounded_and_zero_loss_undefined [1, 2, 1, 2, 1, 2, 1, 2, 1, 2, 1, 2, 1, 2, 1] 14).1
      50 ha,
    (rsi_bounded_and_zero_loss_undefined [1, 2, 3, 4, 5, 6, 7, 8, 9, 10, 11, 12, 13, 14, 15] 14).2
      hzl⟩

lemma payload_support_hint (df : List Bar) :
    (payload df).support_hint = levelJVal (support df) := rfl

lemma payload_resistance_hint (df : List Bar) :
    (payload df).resistance_hint = levelJVal (resistance df) := rfl

lemma payload_hv20_proxy (df : List Bar) :
    (payload df).hv20_proxy = hvJVal (hv20 df) := rfl

lemma level_last_window (f : List ℚ → ℚ) (g : Bar → ℚ) (df : List Bar)
    (h : 5 ≤ df.length) :
    (rollingApply 5 f ((recentDf df).map (fun b => some (g b)))).getLast?.join =
      some (f ((df.drop (df.length - 5)).map g)) := by
  have hxlen : ((recentDf df).map (fun b => some (g b))).length =
      df.length - (df.length - 40) := by
    simp [recentDf]
  have hL : 5 ≤ ((recentDf df).map (fun b => some (g b))).length := by
    rw [hxlen]; omega
  rw [List.getLast?_eq_get?, length_rollingApply,
    rollingApply_get? _ _ _ (by omega :
      ((recentDf df).map (fun b => some (g b))).length - 1 <
        ((recentDf df).map (fun b => some (g b))).length)]
  have hwin : lastWindow 5 (((recentDf df).map (fun b => some (g b))).length - 1)
      ((recentDf df).map (fun b => some (g b))) = ((df.drop (df.length - 5)).map g).map some := by
    unfold lastWindow
    rw [Nat.sub_add_cancel (by omega), List.take_length, ← List.map_drop]
    have hdd : (recentDf df).drop (((recentDf df).map (fun b => some (g b))).length - 5) =
        df.drop (df.length - 5) := by
      unfold recentDf
      rw [List.drop_drop]
      congr 1
      simp only [List.length_map, List.length_drop]
      omega
    rw [hdd, List.map_map]
    rfl
  rw [if_neg (by omega), hwin, allSome_map_some, Option.map_some']
  rfl

/-- C10: with at least 5 bars of history, the snapshot's support hint is
exactly the 2-decimal rounding of the minimum low over the final 5 bars
and the resistance hint the rounded maximum high over the final 5 bars;
the 40-bar recent sub-window is immaterial. -/
theorem levels_are_last_five_extrema (df : List Bar) (h : 5 ≤ df.length) :
    support df = some (listMin ((df.drop (df.length - 5)).map Bar.low)) ∧
    resistance df = some (listMax ((df.drop (df.length - 5)).map Bar.high)) ∧
    (payload df).support_hint =
      JVal.num (round2 (listMin ((df.drop (df.length - 5)).map Bar.low))) ∧
    (payload df).resistance_hint =
      JVal.num (round2 (listMax ((df.drop (df.length - 5)).map Bar.high))) := by
  have hs : support df = some (listMin ((df.drop (df.length - 5)).map Bar.low)) := by
    rw [support]
    exact level_last_window listMin Bar.low df h
  have hr : resistance df = some (listMax ((df.drop (df.length - 5)).map Bar.high)) := by
    rw [resistance]
    exact level_last_window listMax Bar.high df h
  refine ⟨hs, hr, ?_, ?_⟩
  · rw [payload_support_hint, hs]
    rfl
  · rw [payload_resistance_hint, hr]
    rfl

theorem levels_are_last_five_extrema_witness :
    5 ≤ ([⟨1, 9, 1, 5, 10⟩, ⟨1, 8, 2, 5, 10⟩, ⟨1, 7, 3, 5, 10⟩, ⟨1, 6, 4, 5, 10⟩,
      ⟨1, 5, 4, 5, 10⟩, ⟨1, 4, 2, 5, 10⟩] : List Bar).length ∧
    support [⟨1, 9, 1, 5, 10⟩, ⟨1, 8, 2, 5, 10⟩, ⟨1, 7, 3, 5, 10⟩, ⟨1, 6, 4, 5, 10⟩,
      ⟨1, 5, 4, 5, 10⟩, ⟨1, 4, 2, 5, 10⟩] =
      some (listMin ((([⟨1, 9, 1, 5, 10⟩, ⟨1, 8, 2, 5, 10⟩, ⟨1, 7, 3, 5, 10⟩, ⟨1, 6, 4, 5, 10⟩,
        ⟨1, 5, 4, 5, 10⟩, ⟨1, 4, 2, 5, 10⟩] : List Bar).drop
          (([⟨1, 9, 1, 5, 10⟩, ⟨1, 8, 2, 5, 10⟩, ⟨1, 7, 3, 5, 10⟩, ⟨1, 6, 4, 5, 10⟩,
            ⟨1, 5, 4, 5, 10⟩, ⟨1, 4, 2, 5, 10⟩] : List Bar).length - 5)).map Bar.low)) :=
  ⟨by simp, (levels_are_last_five_extrema _ (by simp)).1⟩

lemma rolling_getLast_join_none {α β : Type} (w : ℕ) (f : List α → β)
    (xs : List (Option α)) (h : xs.length < w) :
    (rollingApply w f xs).getLast?.join = none := by
  rw [List.getLast?_eq_get?]
  rcases rollingApply_short_cases w f h ((rollingApply w f xs).length - 1) with hc | hc <;>
    rw [hc] <;> rfl

/-- A concrete 3-bar input: fewer than the 5 bars the level estimator
needs. -/
def threeBars : List Bar := [⟨1, 2, 1, 1, 10⟩, ⟨1, 2, 1, 1, 10⟩, ⟨1, 2, 1, 1, 10⟩]

/-- C2 fails on the code: with fewer than 5 bars the rolling 5-bar
min/max is NaN, `float()` and `round()` pass the NaN through, and the
assembled snapshot carries `NaN` — not an explicit null marker — in both
level fields. -/
theorem short_history_levels_are_nan :
    (payload threeBars).support_hint = JVal.nan ∧
    (payload threeBars).resistance_hint = JVal.nan := by
  have hs : support threeBars = none := by
    rw [support]
    apply rolling_getLast_join_none
    simp [recentDf, threeBars]
  have hr : resistance threeBars = none := by
    rw [resistance]
    apply rolling_getLast_join_none
    simp [recentDf, threeBars]
  constructor
  · rw [payload_support_hint, hs]
    rfl
  · rw [payload_resistance_hint, hr]
    rfl

/-- A 22-bar flat series: constant close, so every log-return is 0 and
more than 20 non-NaN log-returns exist. -/
def flatDf : List Bar := List.replicate 22 ⟨1, 1, 1, 1, 1000⟩

/-- C1 fails on the code: on a flat series the annualized volatility
proxy is computed as exactly `0.0`, but the payload builds the field
with `round(hv20, 4) if hv20 else None`, and Python truthiness treats
the float `0.0` as false — so the snapshot carries `null`, not `0`. -/
theorem flat_series_proxy_zero_dropped_to_null :
    hv20 flatDf = some 0 ∧ (payload flatDf).hv20_proxy = JVal.null := by
  have hlog : flatDf.map (fun b => Real.log ((b.close : ℚ) : ℝ)) =
      List.replicate 22 (0 : ℝ) := by
    rw [flatDf, List.map_replicate]
    norm_num
  have hzip : List.zipWith (fun prev cur => some (cur - prev))
      ((0 : ℝ) :: List.replicate 21 (0 : ℝ)) (List.replicate 21 (0 : ℝ)) =
      List.replicate 21 (some (0 : ℝ)) := by
    rw [← List.replicate_succ, List.zipWith_replicate]
    norm_num
  have hlr : logret flatDf = none :: List.replicate 21 (some (0 : ℝ)) := by
    rw [logret, hlog, show (22 : ℕ) = 21 + 1 from rfl, List.replicate_succ]
    simp only [seriesDiff]
    rw [hzip]
  have hcount : ((none :: List.replicate 21 (some (0 : ℝ))).filterMap id).length = 21 := by
    simp
  have hw : lastWindow 20 21 (none :: List.replicate 21 (some (0 : ℝ))) =
      List.replicate 20 (some (0 : ℝ)) := by
    unfold lastWindow
    rw [List.take_of_length_le (by simp), show (21 + 1 - 20 : ℕ) = 1 + 1 from rfl,
      List.drop_succ_cons, List.drop_replicate]
  have hlast : (rollingApply 20 sampleStd (none :: List.replicate 21 (some (0 : ℝ)))).getLast? =
      some (some 0) := by
    rw [List.getLast?_eq_get?, length_rollingApply]
    have hlen : (none :: List.replicate 21 (some (0 : ℝ))).length = 22 := by simp
    rw [hlen, show (22 - 1 : ℕ) = 21 from rfl,
      rollingApply_get? _ _ _
        (by rw [hlen]; norm_num : 21 < (none :: List.replicate 21 (some (0 : ℝ))).length),
      if_neg (by omega), hw, allSome_replicate, Option.map_some', sampleStd_replicate]
  have hhv : hv20 flatDf = some 0 := by
    unfold hv20
    rw [hlr, if_pos (by rw [hcount]; norm_num), hlast]
    simp
  refine ⟨hhv, ?_⟩
  rw [payload_hv20_proxy, hhv]
  simp [hvJVal]

end RHM
